import Mathlib

/-!
Verification of the separation / noise-removal pipeline of the
music-modifier repository (backend/services/audio_separator.py and
backend/services/noise_remover.py).

Waveforms are shallowly embedded as lists of real samples (`Sig`).  A
stereo buffer of shape (2, N), as returned by `librosa.load(..., mono=False)`,
is embedded as its two channel lists.  Library signal-processing primitives
that the repository calls (scipy `butter`/`filtfilt`) are taken as function
parameters, constrained only by the properties the theorems need (length
preservation), since they are external to the repository.  All other
arithmetic is translated directly from the Python source.
-/

namespace MusicModifier

open List
open Classical

/-- A single-channel waveform: a list of float samples, embedded as reals. -/
abbrev Sig := List ℝ

/-- An in-memory audio buffer as loaded by `librosa.load(..., mono=False)`:
either one channel (`y.ndim == 1`) or two channels (`y` of shape (2, N)). -/
inductive Audio where
  | mono (x : Sig)
  | stereo (l r : Sig)

/-- `np.mean(x)`: sum divided by length (division by zero yields 0, which
matches the guarded uses in the source where an empty-input NaN never
passes a strict positivity test). -/
noncomputable def npMean (x : Sig) : ℝ := x.sum / x.length

/-- Elementwise square, `x ** 2`. -/
def sqList (x : Sig) : Sig := x.map (fun a => a ^ 2)

/-- Multiplication of a numpy array by a scalar, `c * x`. -/
def scale (c : ℝ) (x : Sig) : Sig := x.map (fun a => c * a)

/-- Elementwise deviations from the mean, `x - np.mean(x)`. -/
noncomputable def devs (x : Sig) : Sig := x.map (fun a => a - npMean x)

/-- Sum of elementwise products, `np.sum(a * b)`. -/
def npDot (a b : Sig) : ℝ := (List.zipWith (· * ·) a b).sum

/-- `np.corrcoef(l, r)[0, 1]`: the Pearson correlation coefficient
`cov(l,r) / (std(l) * std(r))`; the `n - 1` normalisation factors cancel.
Degenerate denominators give 0 in this embedding (numpy would give NaN,
which fails every strict comparison in the source exactly as 0 does for
the thresholds 0.5 and 0.7 used there). -/
noncomputable def corrcoef (l r : Sig) : ℝ :=
  npDot (devs l) (devs r) /
    (Real.sqrt (npDot (devs l) (devs l)) * Real.sqrt (npDot (devs r) (devs r)))

/-- `np.max(np.abs(audio))`, with 0 for the empty list (in the source this
value is only consulted behind a positivity guard). -/
def maxAbs (x : Sig) : ℝ := (x.map (fun a => |a|)).foldr max 0

/-- `AudioSeparator._normalize_volume` (audio_separator.py lines 268-284):
RMS-based gain toward the -23 dB target, with the gain clamped so the peak
stays below 0.95 of full scale. -/
noncomputable def normalize_volume (audio : Sig) : Sig :=
  let rms := Real.sqrt (npMean (sqList audio))
  if 0 < rms then
    let target_rms : ℝ := (10 : ℝ) ^ ((-23 : ℝ) / 20)
    let gain := target_rms / rms
    let gain2 := if 0 < maxAbs audio then min gain (0.95 / maxAbs audio) else gain
    scale gain2 audio
  else audio

/-- The mid channel `(left + right) / 2` used by both separation paths. -/
noncomputable def midSig (l r : Sig) : Sig :=
  List.zipWith (fun a b => (a + b) / 2) l r

/-- The side channel `(left - right) / 2` used by both separation paths. -/
noncomputable def sideSig (l r : Sig) : Sig :=
  List.zipWith (fun a b => (a - b) / 2) l r

/-- Vocals of `AudioSeparator._separate_with_fallback` (lines 842-848):
`(left + right) / 2`. -/
noncomputable def fallbackVocals (l r : Sig) : Sig := midSig l r

/-- Accompaniment of `AudioSeparator._separate_with_fallback` (lines 850-851):
`(left - right) / 2`. -/
noncomputable def fallbackAccomp (l r : Sig) : Sig := sideSig l r

/-- The structured failure reasons the separation service can report for
inputs it cannot separate.  Both correspond to source messages that name
mono input as the cause ("单声道文件无法进行音轨分离/算法分离，请使用立体声文件"). -/
inductive SepErr where
  | monoUnseparableFallback
  | monoUnseparableAlgorithmic

/-- Whether a separation error identifies mono input as unseparable. -/
def SepErr.isMonoUnseparable : SepErr → Bool
  | .monoUnseparableFallback => true
  | .monoUnseparableAlgorithmic => true

/-- Result of `AudioSeparator.separate`.  `ok` carries the two stems and the
method tag of the returned dict; `err` is the `success: False` dict; the
`model*` constructors mark delegation to the external Spleeter model, which
is outside the repository. -/
inductive SepOutcome where
  | ok (vocals accomp : Sig) (method : String)
  | err (e : SepErr)
  | modelEnhanced
  | modelClean (quality : String)

/-- Whether the outcome is the `success: False` dict. -/
def SepOutcome.isErr : SepOutcome → Bool
  | .err _ => true
  | _ => false

/-- Whether the outcome is a mono-unseparable structured failure. -/
def SepOutcome.isMonoFail : SepOutcome → Bool
  | .err e => e.isMonoUnseparable
  | _ => false

/-- `AudioSeparator._separate_with_fallback` (lines 827-882): mono input
returns the `success: False` dict whose error message names mono input;
stereo input returns the mid/side stems with method
"center_channel_extraction" and no further processing. -/
noncomputable def separate_with_fallback : Audio → SepOutcome
  | .mono _ => .err .monoUnseparableFallback
  | .stereo l r =>
      .ok (fallbackVocals l r) (fallbackAccomp l r) "center_channel_extraction"

/-- `AudioSeparator._enhance_center_extraction` (lines 286-303): when the
L/R correlation exceeds 0.7, blend the mid signal with `(L + R) / 4`
weighted by `min(1, correlation)`; otherwise return the mid signal. -/
noncomputable def enhance_center_extraction (mid l r : Sig) : Sig :=
  let correlation := corrcoef l r
  if 0.7 < correlation then
    let weight := min 1 correlation
    List.zipWith (· + ·) (scale weight mid)
      (scale ((1 - weight) / 4) (List.zipWith (· + ·) l r))
  else mid

/-- `AudioSeparator._enhance_side_extraction` (lines 305-330).  The two
zero-phase Butterworth filters (`filtfilt` of `butter(2, 200, high/low)`)
are scipy primitives, taken here as the function parameters `fhp` and
`flp`; the repository arithmetic around them is translated exactly:
`filtfilt(hp, side * 2) + filtfilt(lp, (left + right) / 2) * 0.5`. -/
noncomputable def enhance_side_extraction (fhp flp : Sig → Sig)
    (side l r : Sig) : Sig :=
  let enhanced_side := fhp (scale 2 side)
  let low_freq := flp (midSig l r)
  List.zipWith (· + ·) enhanced_side (scale 0.5 low_freq)

/-- The stereo body of `AudioSeparator._clean_algorithmic_separation`
(lines 214-233): mid/side split, the high-quality refinement when
`quality == "high"`, then per-stem volume normalisation. -/
noncomputable def cleanStereoStems (fhp flp : Sig → Sig) (quality : String)
    (l r : Sig) : Sig × Sig :=
  let mid := midSig l r
  let side := sideSig l r
  if quality = "high" then
    (normalize_volume (enhance_center_extraction mid l r),
     normalize_volume (enhance_side_extraction fhp flp side l r))
  else
    (normalize_volume mid, normalize_volume side)

/-- `AudioSeparator._clean_algorithmic_separation` (lines 195-246): mono
input raises `ValueError` (embedded as the error value), stereo input
produces the cleaned stems. -/
noncomputable def clean_algorithmic_separation (fhp flp : Sig → Sig)
    (quality : String) : Audio → Except SepErr (Sig × Sig)
  | .mono _ => .error .monoUnseparableAlgorithmic
  | .stereo l r => .ok (cleanStereoStems fhp flp quality l r)

/-- `AudioSeparator._separate_clean` (lines 91-148): with the model loaded
it delegates to Spleeter; otherwise it runs the algorithmic separation,
and an exception raised there propagates to `separate`, which converts it
to the `success: False` dict. -/
noncomputable def separate_clean (model_loaded : Bool) (fhp flp : Sig → Sig)
    (quality : String) (a : Audio) : SepOutcome :=
  if model_loaded then .modelClean quality
  else
    match clean_algorithmic_separation fhp flp quality a with
    | .ok (v, acc) => .ok v acc "algorithmic_clean"
    | .error e => .err e

/-- `AudioSeparator.separate` (lines 62-89): dispatch on the mode string.
`"clean"` goes to the clean path; `"fallback"`, or any mode when the model
is not loaded, goes to the fallback path; everything else goes to the
enhanced Spleeter path. -/
noncomputable def separate (model_loaded : Bool) (fhp flp : Sig → Sig)
    (mode quality : String) (a : Audio) : SepOutcome :=
  if mode = "clean" then separate_clean model_loaded fhp flp quality a
  else if mode = "fallback" ∨ model_loaded = false then separate_with_fallback a
  else .modelEnhanced

/-- `AudioSeparator.is_ready` (lines 58-60): `self.model_loaded or True`. -/
def is_ready (model_loaded : Bool) : Bool := model_loaded || true

/-! ### Spectral-subtraction floor (audio_separator.py lines 493-526)

`_gentle_spectral_subtraction` works on the power spectra
`|rfft(target)| ** 2` and `|rfft(noise)| ** 2`.  The claims concern the
power-domain core of lines 501-510, which is embedded below over
arbitrary power lists (the transform itself is a scipy primitive). -/

/-- Full discrete convolution `np.convolve(a, v)`:
`full[k] = sum_i a[i] * v[k - i]` with out-of-range terms zero. -/
noncomputable def convolveFull (a v : Sig) : Sig :=
  (List.range (a.length + v.length - 1)).map
    (fun k => ((List.range (k + 1)).map
      (fun i => a.getD i 0 * v.getD (k - i) 0)).sum)

/-- `np.convolve(a, v, mode := same)`: the centered slice of the full
convolution, of length `max(len(a), len(v))`. -/
noncomputable def convolveSame (a v : Sig) : Sig :=
  ((convolveFull a v).drop ((min a.length v.length - 1) / 2)).take
    (max a.length v.length)

/-- `AudioSeparator._smooth_noise_spectrum` (lines 528-537): moving average
of the noise power with window `max(3, len // 100)`.  When the `same`
convolution does not have the input length, the `reshape` in the source
raises and the `except` returns the input unchanged, which the length
guard models. -/
noncomputable def smooth_noise_spectrum (noise_power : Sig) : Sig :=
  let window_size := max 3 (noise_power.length / 100)
  let smoothed :=
    convolveSame noise_power (List.replicate window_size ((window_size : ℝ)⁻¹))
  if smoothed.length = noise_power.length then smoothed else noise_power

/-- The power-domain core of `AudioSeparator._gentle_spectral_subtraction`
(lines 501-510): subtract `alpha` times the smoothed noise power from the
target power and floor the result at `0.3 * target_power` per bin. -/
noncomputable def gentleSubtractedPower (alpha : ℝ)
    (target_power noise_power : Sig) : Sig :=
  List.zipWith (fun t n => max (t - alpha * n) (0.3 * t))
    target_power (smooth_noise_spectrum noise_power)

/-! ### Noise remover (noise_remover.py) -/

/-- The denoise algorithm selected by `NoiseRemover._process_mono_noise_removal`. -/
inductive NoiseAlg where
  | white
  | hiss
  | hum
  | general
deriving DecidableEq

/-- The dispatch of `NoiseRemover._process_mono_noise_removal`
(noise_remover.py lines 77-91): `"auto"` is replaced by the detected
class, then `"white"`, `"hiss"` and `"hum"` pick their algorithms and any
other string falls through to the generic denoiser. -/
def noiseAlgFor (noise_type detected : String) : NoiseAlg :=
  let t := if noise_type = "auto" then detected else noise_type
  if t = "white" then .white
  else if t = "hiss" then .hiss
  else if t = "hum" then .hum
  else .general

/-- `NoiseRemover._enhance_stereo_coherence` (lines 419-449) on a stereo
buffer given as its two columns: when the correlation of the channels
exceeds 0.5, rebuild each channel as `mid + side * (1 - strength)`;
otherwise return the buffer unchanged.  The `len(left) > 1` guard of the
source is embedded; the shape-2 guard holds by construction here. -/
noncomputable def enhance_stereo_coherence (l r : Sig) (strength : ℝ) :
    Sig × Sig :=
  let correlation := if 1 < l.length then corrcoef l r else 0
  if 0.5 < correlation then
    let mid := midSig l r
    let side_left := List.zipWith (· - ·) l mid
    let side_right := List.zipWith (· - ·) r mid
    let gain := 1 - strength
    (List.zipWith (· + ·) mid (scale gain side_left),
     List.zipWith (· + ·) mid (scale gain side_right))
  else (l, r)

/-- `NoiseRemover._process_stereo_noise_removal` (lines 102-122): clean
each channel with the mono chain, then run the coherence pass with
`strength * 0.3`.  The mono chain `_process_mono_noise_removal` (a
composition of scipy STFT-based stages) is the parameter `mc`, applied to
the noise-type string, the strength and the channel, exactly as in the
source. -/
noncomputable def process_stereo_noise (mc : String → ℝ → Sig → Sig)
    (noise_type : String) (strength : ℝ) (l r : Sig) : Sig × Sig :=
  enhance_stereo_coherence (mc noise_type strength l) (mc noise_type strength r)
    (strength * 0.3)

/-- `python range(0, stop, step)` for positive `step` (`stop` clipped at 0,
matching an empty range for non-positive stops). -/
def pyRange0 (stop step : ℕ) : List ℕ :=
  (List.range ((stop + step - 1) / step)).map (fun k => k * step)

/-- The per-window gain of `NoiseRemover._adaptive_filter_denoise`
(lines 306-313): energetic windows get `min(1, 1 / (1 + strength * 0.1 / energy))`,
quiet windows get `1 - strength * 0.9`. -/
noncomputable def adaptiveWindow (strength : ℝ) (w : Sig) : Sig :=
  let energy := npMean (sqList w)
  if 1e-6 < energy then
    scale (min 1 (1 / (1 + strength * 0.1 / energy))) w
  else
    scale (1 - strength * 0.9) w

/-- `cleaned[i:i + len(w)] += w`: add `w` into `base` at offset `i`. -/
def addInto (base : Sig) (i : ℕ) (w : Sig) : Sig :=
  base.mapIdx (fun j x =>
    if i ≤ j ∧ j < i + w.length then x + w.getD (j - i) 0 else x)

/-- `NoiseRemover._adaptive_filter_denoise` (lines 293-322): overlap-add of
gain-scaled 100 ms windows (window `int(0.1 * sr)`, hop a quarter window)
into a zero buffer, each added with weight 0.25.  When the hop is zero the
`range` call in the source raises `ValueError`, the surrounding `except`
fires and the input is returned unchanged, which the first guard models. -/
noncomputable def adaptive_filter_denoise (audio : Sig) (sr : ℕ)
    (strength : ℝ) : Sig :=
  let window_size := sr / 10
  let hop_size := window_size / 4
  if hop_size = 0 then audio
  else
    (pyRange0 (audio.length - window_size) hop_size).foldl
      (fun cleaned i =>
        addInto cleaned i
          (scale 0.25 (adaptiveWindow strength ((audio.drop i).take window_size))))
      (List.replicate audio.length 0)

/-- `NoiseRemover._calculate_noise_reduction` (lines 471-486):
`10 * log10(original_energy / cleaned_energy)` when both mean energies are
strictly positive, and 0.0 otherwise. -/
noncomputable def calculate_noise_reduction (original cleaned : Sig) : ℝ :=
  let original_energy := npMean (sqList original)
  let cleaned_energy := npMean (sqList cleaned)
  if 0 < original_energy ∧ 0 < cleaned_energy then
    10 * Real.logb 10 (original_energy / cleaned_energy)
  else 0

/-- All samples of a buffer, in the flattening order `np.mean` sees for a
planar (2, N) array; mean energy is order-independent, so the
column-stacked cleaned buffer has the same energy as this flattening. -/
def audioSamples : Audio → Sig
  | .mono x => x
  | .stereo l r => l ++ r

/-- The `success: True` payload of `NoiseRemover.remove_noise` that the
claims inspect: the dB estimate and the cleaned buffer. -/
structure NoiseSuccess where
  noise_reduction_db : ℝ
  cleaned : Audio

/-- Result dict of `NoiseRemover.remove_noise`: either the success payload
or the `success: False` dict with its error string. -/
inductive NoiseResult where
  | ok (r : NoiseSuccess)
  | fail (error : String)

/-- Whether a noise-removal result dict has `success: True`. -/
def NoiseResult.isOk : NoiseResult → Bool
  | .ok _ => true
  | .fail _ => false

/-- `NoiseRemover.remove_noise` (lines 23-72).  File loading is the only
stage whose exceptions escape to the top-level `except` (every processing
helper catches its own failures and returns its input), so the fallible
load is the `Except`-valued argument.  On a loaded buffer the mono chain
`mc` (or the stereo wrapper around it) runs and the dB metric compares the
original and cleaned energies. -/
noncomputable def remove_noise (mc : String → ℝ → Sig → Sig)
    (load : Except String Audio) (noise_type : String) (strength : ℝ) :
    NoiseResult :=
  match load with
  | .error e => .fail e
  | .ok y =>
      let cleaned : Audio :=
        match y with
        | .mono x => .mono (mc noise_type strength x)
        | .stereo l r =>
            let p := process_stereo_noise mc noise_type strength l r
            .stereo p.1 p.2
      .ok ⟨calculate_noise_reduction (audioSamples y) (audioSamples cleaned),
           cleaned⟩

/-- Result of `NoiseRemover.remove_separation_artifacts`: overall success
with the averaged dB estimate and both sub-results, or overall failure
carrying both sub-result dicts verbatim. -/
inductive ArtifactsResult where
  | ok (total_noise_reduction : ℝ) (vocals_cleaned accompaniment_cleaned : NoiseSuccess)
  | fail (vocals_result accompaniment_result : NoiseResult)

/-- `NoiseRemover.remove_separation_artifacts` (lines 488-519): run
`remove_noise(.., "auto", strength)` on both stems; if both succeed,
report success with the average of the two dB estimates, otherwise report
failure while returning both sub-results. -/
noncomputable def remove_separation_artifacts (mc : String → ℝ → Sig → Sig)
    (vload aload : Except String Audio) (strength : ℝ) : ArtifactsResult :=
  let vocals_result := remove_noise mc vload "auto" strength
  let accompaniment_result := remove_noise mc aload "auto" strength
  match vocals_result, accompaniment_result with
  | .ok v, .ok a =>
      .ok ((v.noise_reduction_db + a.noise_reduction_db) / 2) v a
  | _, _ => .fail vocals_result accompaniment_result

/-! ### Helper lemmas -/

theorem scale_length (c : ℝ) (x : Sig) : (scale c x).length = x.length := by
  simp [scale]

theorem midSig_length (l r : Sig) :
    (midSig l r).length = min l.length r.length := by
  simp [midSig]

theorem sideSig_length (l r : Sig) :
    (sideSig l r).length = min l.length r.length := by
  simp [sideSig]

theorem normalize_volume_length (audio : Sig) :
    (normalize_volume audio).length = audio.length := by
  unfold normalize_volume
  by_cases hrms : 0 < Real.sqrt (npMean (sqList audio))
  · simp [hrms, scale]
  · simp [hrms]

theorem midside_add (l : Sig) : ∀ r : Sig, l.length = r.length →
    List.zipWith (· + ·) (List.zipWith (fun a b => (a + b) / 2) l r)
      (List.zipWith (fun a b => (a - b) / 2) l r) = l := by
  induction l with
  | nil => intro r _; simp
  | cons a as ih =>
    intro r h
    cases r with
    | nil => simp at h
    | cons b bs =>
      simp only [List.zipWith_cons_cons]
      congr 1
      · ring
      · exact ih bs (by simpa using h)

theorem midside_sub (l : Sig) : ∀ r : Sig, l.length = r.length →
    List.zipWith (· - ·) (List.zipWith (fun a b => (a + b) / 2) l r)
      (List.zipWith (fun a b => (a - b) / 2) l r) = r := by
  induction l with
  | nil =>
    intro r h
    cases r with
    | nil => simp
    | cons b bs => simp at h
  | cons a as ih =>
    intro r h
    cases r with
    | nil => simp at h
    | cons b bs =>
      simp only [List.zipWith_cons_cons]
      congr 1
      · ring
      · exact ih bs (by simpa using h)

theorem getD_zipWith (f : ℝ → ℝ → ℝ) : ∀ (a b : Sig) (i : ℕ),
    i < (List.zipWith f a b).length →
    (List.zipWith f a b).getD i 0 = f (a.getD i 0) (b.getD i 0) := by
  intro a
  induction a with
  | nil => intro b i h; simp at h
  | cons x xs ih =>
    intro b i h
    cases b with
    | nil => simp at h
    | cons y ys =>
      cases i with
      | zero => simp
      | succ n =>
        simp only [List.zipWith_cons_cons, List.getD_cons_succ]
        exact ih ys n (by simpa using h)

theorem getD_lt_of_zipWith {f : ℝ → ℝ → ℝ} {a b : Sig} {i : ℕ}
    (h : i < (List.zipWith f a b).length) : i < a.length ∧ i < b.length := by
  rw [List.length_zipWith, lt_min_iff] at h
  exact h

theorem pyRange0_zero (step : ℕ) (h : 0 < step) : pyRange0 0 step = [] := by
  unfold pyRange0
  have hz : (0 + step - 1) / step = 0 := Nat.div_eq_of_lt (by omega)
  rw [hz]
  rfl

theorem enhance_center_extraction_length (mid l r : Sig)
    (hm : mid.length = l.length) (hr : r.length = l.length) :
    (enhance_center_extraction mid l r).length = l.length := by
  by_cases hc : (0.7 : ℝ) < corrcoef l r
  · simp [enhance_center_extraction, hc, scale, hm, hr]
  · simp [enhance_center_extraction, hc, hm]

theorem enhance_side_extraction_length (fhp flp : Sig → Sig)
    (hfh : ∀ s : Sig, (fhp s).length = s.length)
    (hfl : ∀ s : Sig, (flp s).length = s.length)
    (side l r : Sig) (hs : side.length = l.length) (hr : r.length = l.length) :
    (enhance_side_extraction fhp flp side l r).length = l.length := by
  simp [enhance_side_extraction, scale, hfh, hfl, midSig, hs, hr]

/-! ### Claim theorems -/

/-- Claim C2: in the fallback separation path, the mid/side stems exactly
reconstruct the input channels: `vocals + accompaniment = L` and
`vocals - accompaniment = R` (exact in this real-valued embedding, hence
within any floating-point tolerance), before any enhancement — the
fallback path applies none. -/
theorem fallback_midside_reconstruction (l r : Sig) (h : l.length = r.length) :
    List.zipWith (· + ·) (fallbackVocals l r) (fallbackAccomp l r) = l ∧
    List.zipWith (· - ·) (fallbackVocals l r) (fallbackAccomp l r) = r := by
  unfold fallbackVocals fallbackAccomp midSig sideSig
  exact ⟨midside_add l r h, midside_sub l r h⟩

/-- Witness for C2 at a concrete stereo input. -/
theorem fallback_midside_reconstruction_witness :
    ([(1 : ℝ), 2]).length = ([(3 : ℝ), 4]).length ∧
    (List.zipWith (· + ·) (fallbackVocals [(1 : ℝ), 2] [(3 : ℝ), 4])
        (fallbackAccomp [(1 : ℝ), 2] [(3 : ℝ), 4]) = [(1 : ℝ), 2] ∧
      List.zipWith (· - ·) (fallbackVocals [(1 : ℝ), 2] [(3 : ℝ), 4])
        (fallbackAccomp [(1 : ℝ), 2] [(3 : ℝ), 4]) = [(3 : ℝ), 4]) :=
  ⟨rfl, fallback_midside_reconstruction [(1 : ℝ), 2] [(3 : ℝ), 4] rfl⟩

/-- Claim C3: with no external model loaded, mono input makes `separate`
return the structured mono-unseparable failure for every mode and quality,
never a success and never an uncaught exception. -/
theorem mono_input_unseparable (fhp flp : Sig → Sig) (mode quality : String)
    (x : Sig) :
    (separate false fhp flp mode quality (Audio.mono x)).isMonoFail = true := by
  unfold separate
  by_cases hm : mode = "clean"
  · rw [if_pos hm]
    rfl
  · rw [if_neg hm, if_pos (Or.inr rfl)]
    rfl

/-- Counterexample to claim C4: an unknown mode string does not fail fast.
With no model loaded, `separate` with mode "bogus" silently runs the
fallback algorithm and returns a success dict, and an unknown noise type
routes to the generic denoiser instead of raising. -/
theorem unknown_mode_counterexample :
    separate false id id "bogus" "high" (Audio.stereo [1] [1]) =
      SepOutcome.ok (fallbackVocals [1] [1]) (fallbackAccomp [1] [1])
        "center_channel_extraction" ∧
    (separate false id id "bogus" "high" (Audio.stereo [1] [1])).isErr = false ∧
    noiseAlgFor "bogus" "white" = NoiseAlg.general :=
  ⟨rfl, rfl, rfl⟩

/-- Claim C4 as amended: an unknown mode string is routed silently — to the
enhanced Spleeter path when the model is loaded and to the fallback path
otherwise — and an unknown noise-type string is routed silently to the
generic denoiser; no validation error is raised in either service. -/
theorem unknown_params_route_default (fhp flp : Sig → Sig)
    (mode quality nt detected : String)
    (_hm1 : mode ≠ "enhanced") (hm2 : mode ≠ "clean") (hm3 : mode ≠ "fallback")
    (hn1 : nt ≠ "auto") (hn2 : nt ≠ "white") (hn3 : nt ≠ "hiss")
    (hn4 : nt ≠ "hum") :
    (∀ a : Audio, separate true fhp flp mode quality a =
      SepOutcome.modelEnhanced) ∧
    (∀ a : Audio, separate false fhp flp mode quality a =
      separate_with_fallback a) ∧
    noiseAlgFor nt detected = NoiseAlg.general := by
  refine ⟨fun a => ?_, fun a => ?_, ?_⟩
  · simp [separate, hm2, hm3]
  · simp [separate, hm2]
  · simp [noiseAlgFor, hn1, hn2, hn3, hn4]

/-- Witness for the amended C4 at concrete unknown strings. -/
theorem unknown_params_route_default_witness :
    separate true id id "bogus" "high" (Audio.stereo [1] [2]) =
      SepOutcome.modelEnhanced ∧
    separate false id id "bogus" "high" (Audio.stereo [1] [2]) =
      separate_with_fallback (Audio.stereo [1] [2]) ∧
    noiseAlgFor "bogus" "white" = NoiseAlg.general := by
  have h := unknown_params_route_default id id "bogus" "high" "bogus" "white"
    (by decide) (by decide) (by decide) (by decide) (by decide) (by decide)
    (by decide)
  exact ⟨h.1 _, h.2.1 _, h.2.2⟩

/-- Counterexample to claim C5: `isReady` does not reflect model
availability — with the model not loaded it still returns true, so it is
not equivalent to the model having loaded. -/
theorem is_ready_counterexample : ¬(is_ready false = true ↔ false = true) := by
  decide

/-- Claim C5 as amended: `isReady` always returns true, whether or not the
optional model loaded, because the fallback algorithm is always available
(`self.model_loaded or True`). -/
theorem is_ready_always_true : ∀ m : Bool, is_ready m = true := by
  decide

/-- Counterexample to claim C9: when `int(0.1 * sr) < 4` the hop size is
zero, the `range` call raises, the stage catches the error and returns the
input unchanged — not an all-zero signal — even though the input length
(1) is at most the window (1). -/
theorem adaptive_window_counterexample :
    adaptive_filter_denoise [1] 10 1 = [1] ∧
    adaptive_filter_denoise [1] 10 1 ≠ List.replicate 1 (0 : ℝ) := by
  refine ⟨rfl, ?_⟩
  intro hcontra
  rw [show adaptive_filter_denoise [1] 10 1 = [1] from rfl] at hcontra
  simp at hcontra

/-- Claim C9 as amended: whenever the hop size `(sr / 10) / 4` is nonzero
(every realistic sample rate) and the input length is at most the 100 ms
window `sr / 10`, the sliding-window adaptive attenuator returns the
all-zero signal of the same length. -/
theorem adaptive_short_input_zero (audio : Sig) (sr : ℕ) (strength : ℝ)
    (hhop : 0 < sr / 10 / 4) (hlen : audio.length ≤ sr / 10) :
    adaptive_filter_denoise audio sr strength =
      List.replicate audio.length (0 : ℝ) := by
  unfold adaptive_filter_denoise
  rw [if_neg (Nat.pos_iff_ne_zero.mp hhop), Nat.sub_eq_zero_of_le hlen,
    pyRange0_zero _ hhop]
  rfl

/-- Witness for the amended C9 at 44.1 kHz with a three-sample input. -/
theorem adaptive_short_input_zero_witness :
    0 < 44100 / 10 / 4 ∧ ([(1 : ℝ), 2, 3]).length ≤ 44100 / 10 ∧
    adaptive_filter_denoise [(1 : ℝ), 2, 3] 44100 (1 / 2) =
      List.replicate 3 (0 : ℝ) := by
  refine ⟨by norm_num, by norm_num, ?_⟩
  have h := adaptive_short_input_zero [(1 : ℝ), 2, 3] 44100 (1 / 2)
    (by norm_num) (by norm_num)
  simpa using h

/-- Claim C10: the noise-reduction metric never divides by zero or takes a
logarithm of zero — whenever the original or the cleaned mean energy is
zero it returns exactly 0; on all other inputs it is the real number
`10 * log10(originalEnergy / cleanedEnergy)`, total by construction. -/
theorem noise_reduction_zero_guard (original cleaned : Sig)
    (h : npMean (sqList original) = 0 ∨ npMean (sqList cleaned) = 0) :
    calculate_noise_reduction original cleaned = 0 := by
  unfold calculate_noise_reduction
  rw [if_neg]
  rintro ⟨h1, h2⟩
  rcases h with h | h
  · rw [h] at h1; exact lt_irrefl 0 h1
  · rw [h] at h2; exact lt_irrefl 0 h2

/-- Witness for C10: an all-zero original gives a metric of exactly 0. -/
theorem noise_reduction_zero_guard_witness :
    (npMean (sqList [(0 : ℝ), 0]) = 0 ∨ npMean (sqList [(1 : ℝ)]) = 0) ∧
    calculate_noise_reduction [(0 : ℝ), 0] [(1 : ℝ)] = 0 := by
  have h : npMean (sqList [(0 : ℝ), 0]) = 0 := by norm_num [npMean, sqList]
  exact ⟨Or.inl h, noise_reduction_zero_guard _ _ (Or.inl h)⟩

/-- Claim C1: for every valid stereo input, both the fallback path and the
clean algorithmic path produce vocals and accompaniment stems whose sample
counts equal the input sample count, for every quality tier; the two scipy
filters used by the high-quality side refinement are length-preserving
(the documented `filtfilt` contract). -/
theorem separation_length_invariant (fhp flp : Sig → Sig)
    (hfh : ∀ s : Sig, (fhp s).length = s.length)
    (hfl : ∀ s : Sig, (flp s).length = s.length)
    (quality : String) (l r : Sig) (h : l.length = r.length) :
    (fallbackVocals l r).length = l.length ∧
    (fallbackAccomp l r).length = l.length ∧
    (cleanStereoStems fhp flp quality l r).1.length = l.length ∧
    (cleanStereoStems fhp flp quality l r).2.length = l.length := by
  have hmid : (midSig l r).length = l.length := by
    rw [midSig_length, h, min_self]
  have hside : (sideSig l r).length = l.length := by
    rw [sideSig_length, h, min_self]
  refine ⟨hmid, hside, ?_, ?_⟩
  · by_cases hq : quality = "high"
    · simp only [cleanStereoStems, hq, if_pos]
      rw [normalize_volume_length,
        enhance_center_extraction_length _ _ _ hmid h.symm]
    · simp only [cleanStereoStems, hq, if_neg, ite_false]
      rw [normalize_volume_length]
      exact hmid
  · by_cases hq : quality = "high"
    · simp only [cleanStereoStems, hq, if_pos]
      rw [normalize_volume_length,
        enhance_side_extraction_length fhp flp hfh hfl _ _ _ hside h.symm]
    · simp only [cleanStereoStems, hq, if_neg, ite_false]
      rw [normalize_volume_length]
      exact hside

/-- Witness for C1 at a concrete two-sample stereo input with identity
filters. -/
theorem separation_length_invariant_witness :
    ([(1 : ℝ), 2]).length = ([(3 : ℝ), 4]).length ∧
    (fallbackVocals [(1 : ℝ), 2] [(3 : ℝ), 4]).length = 2 ∧
    (fallbackAccomp [(1 : ℝ), 2] [(3 : ℝ), 4]).length = 2 ∧
    (cleanStereoStems id id "high" [(1 : ℝ), 2] [(3 : ℝ), 4]).1.length = 2 ∧
    (cleanStereoStems id id "high" [(1 : ℝ), 2] [(3 : ℝ), 4]).2.length = 2 := by
  have h := separation_length_invariant id id (fun _ => rfl) (fun _ => rfl)
    "high" [(1 : ℝ), 2] [(3 : ℝ), 4] rfl
  exact ⟨rfl, h.1, h.2.1, h.2.2.1, h.2.2.2⟩

/-- Claim C6: in the gentle spectral subtraction, the power remaining in
each bin after subtracting the (smoothed) interference power is floored at
30 percent of the original target power in that bin, hence also at least
10 percent of it whenever the target power is nonnegative (as every
squared magnitude is). -/
theorem spectral_floor_protection (alpha : ℝ) (tp npw : Sig) (i : ℕ)
    (hi : i < (gentleSubtractedPower alpha tp npw).length) :
    0.3 * tp.getD i 0 ≤ (gentleSubtractedPower alpha tp npw).getD i 0 ∧
    (0 ≤ tp.getD i 0 →
      0.1 * tp.getD i 0 ≤ (gentleSubtractedPower alpha tp npw).getD i 0) := by
  unfold gentleSubtractedPower at hi ⊢
  rw [getD_zipWith _ _ _ _ hi]
  constructor
  · exact le_max_right _ _
  · intro ht
    refine le_trans ?_ (le_max_right _ _)
    nlinarith

/-- Witness for C6 at a concrete power spectrum. -/
theorem spectral_floor_protection_witness :
    0 < (gentleSubtractedPower 1 [(1 : ℝ), 1, 1] [(1 : ℝ), 1, 1]).length ∧
    0.3 * ([(1 : ℝ), 1, 1]).getD 0 0 ≤
      (gentleSubtractedPower 1 [(1 : ℝ), 1, 1] [(1 : ℝ), 1, 1]).getD 0 0 := by
  have hi : 0 < (gentleSubtractedPower 1 [(1 : ℝ), 1, 1] [(1 : ℝ), 1, 1]).length := by
    simp [gentleSubtractedPower, smooth_noise_spectrum, convolveSame,
      convolveFull]
  exact ⟨hi, (spectral_floor_protection 1 _ _ 0 hi).1⟩

/-- Claim C7: `removeSeparationArtifacts` runs auto-mode noise removal on
both stems independently; when both sub-calls succeed it reports success
with the average of the two dB estimates, and when either fails it reports
overall failure while still carrying both sub-results — in particular the
one that succeeded. -/
theorem artifacts_composition (mc : String → ℝ → Sig → Sig)
    (vload aload : Except String Audio) (strength : ℝ) :
    (∀ v a, remove_noise mc vload "auto" strength = .ok v →
        remove_noise mc aload "auto" strength = .ok a →
        remove_separation_artifacts mc vload aload strength =
          .ok ((v.noise_reduction_db + a.noise_reduction_db) / 2) v a) ∧
    ((remove_noise mc vload "auto" strength).isOk = false ∨
        (remove_noise mc aload "auto" strength).isOk = false →
      remove_separation_artifacts mc vload aload strength =
        .fail (remove_noise mc vload "auto" strength)
          (remove_noise mc aload "auto" strength)) := by
  constructor
  · intro v a hv ha
    unfold remove_separation_artifacts
    rw [hv, ha]
  · intro h
    unfold remove_separation_artifacts
    rcases hv : remove_noise mc vload "auto" strength with v | e <;>
      rcases ha : remove_noise mc aload "auto" strength with a | e2 <;>
        simp_all [NoiseResult.isOk]

/-- Witness for C7: a concrete all-success case and a concrete case where
the accompaniment load fails while the vocals sub-result succeeds. -/
theorem artifacts_composition_witness :
    remove_separation_artifacts (fun _ _ x => x) (.ok (Audio.mono [1]))
        (.ok (Audio.mono [2])) (1 / 2) =
      .ok ((calculate_noise_reduction [1] [1] +
            calculate_noise_reduction [2] [2]) / 2)
        ⟨calculate_noise_reduction [1] [1], Audio.mono [1]⟩
        ⟨calculate_noise_reduction [2] [2], Audio.mono [2]⟩ ∧
    remove_separation_artifacts (fun _ _ x => x) (.ok (Audio.mono [1]))
        (.error "disk full") (1 / 2) =
      .fail (remove_noise (fun _ _ x => x) (.ok (Audio.mono [1])) "auto" (1 / 2))
        (remove_noise (fun _ _ x => x) (.error "disk full") "auto" (1 / 2)) := by
  constructor
  · exact (artifacts_composition (fun _ _ x => x) (.ok (Audio.mono [1]))
      (.ok (Audio.mono [2])) (1 / 2)).1
      ⟨calculate_noise_reduction [1] [1], Audio.mono [1]⟩
      ⟨calculate_noise_reduction [2] [2], Audio.mono [2]⟩ rfl rfl
  · exact (artifacts_composition (fun _ _ x => x) (.ok (Audio.mono [1]))
      (.error "disk full") (1 / 2)).2 (Or.inr rfl)

theorem corrcoef_self_pos (l : Sig) (h : 0 < npDot (devs l) (devs l)) :
    corrcoef l l = 1 := by
  unfold corrcoef
  rw [Real.mul_self_sqrt (le_of_lt h)]
  exact div_self (ne_of_gt h)

/-- Counterexample to claim C8: inside stereo noise removal with strength
`s = 1` the claim predicts the coherence step zeroes the side component
(factor `1 - s = 0`), so the left output would equal the mid channel; the
code passes `strength * 0.3` to the step, so the side survives with factor
0.7 and the output differs from the mid channel. -/
theorem coherence_factor_counterexample :
    (0.5 : ℝ) < corrcoef [(0 : ℝ), 2] [(0 : ℝ), 4] ∧
    (process_stereo_noise (fun _ _ x => x) "auto" 1 [(0 : ℝ), 2]
        [(0 : ℝ), 4]).1 ≠ midSig [(0 : ℝ), 2] [(0 : ℝ), 4] := by
  have h1 : devs [(0 : ℝ), 2] = [-1, 1] := by norm_num [devs, npMean]
  have h2 : devs [(0 : ℝ), 4] = [-2, 2] := by norm_num [devs, npMean]
  have h3 : Real.sqrt (npDot [(-1 : ℝ), 1] [(-1 : ℝ), 1]) *
      Real.sqrt (npDot [(-2 : ℝ), 2] [(-2 : ℝ), 2]) = 4 := by
    rw [show npDot [(-1 : ℝ), 1] [(-1 : ℝ), 1] = 2 by norm_num [npDot],
      show npDot [(-2 : ℝ), 2] [(-2 : ℝ), 2] = 8 by norm_num [npDot],
      ← Real.sqrt_mul (by norm_num : (0 : ℝ) ≤ 2),
      show (2 : ℝ) * 8 = 16 by norm_num,
      show (16 : ℝ) = 4 ^ 2 by norm_num,
      Real.sqrt_sq (by norm_num : (0 : ℝ) ≤ 4)]
  have hcorr : corrcoef [(0 : ℝ), 2] [(0 : ℝ), 4] = 1 := by
    unfold corrcoef
    rw [h1, h2, h3]
    norm_num [npDot]
  refine ⟨by rw [hcorr]; norm_num, ?_⟩
  have hout : (process_stereo_noise (fun _ _ x => x) "auto" 1 [(0 : ℝ), 2]
      [(0 : ℝ), 4]).1 = [0, 23 / 10] := by
    unfold process_stereo_noise enhance_stereo_coherence
    dsimp only
    rw [if_pos (by norm_num : 1 < ([(0 : ℝ), 2]).length), hcorr,
      if_pos (by norm_num : (0.5 : ℝ) < 1)]
    norm_num [midSig, scale]
  rw [hout, show midSig [(0 : ℝ), 2] [(0 : ℝ), 4] = [0, 3] from by
    norm_num [midSig]]
  intro hcontra
  simp only [List.cons.injEq] at hcontra
  norm_num at hcontra

/-- Claim C8 as amended: within stereo noise removal with strength `s`, the
coherence step receives `s * 0.3`; when the correlation of the two cleaned
channels exceeds 0.5 it rebuilds each channel as
`mid + side * (1 - s * 0.3)` (the side shrinks by `1 - 0.3 s`, not
`1 - s`), and otherwise it returns the cleaned channels unchanged.  This
holds for every per-channel mono cleaning chain `mc`. -/
theorem coherence_scaled_strength (mc : String → ℝ → Sig → Sig)
    (nt : String) (s : ℝ) (l r : Sig) :
    ((1 < (mc nt s l).length ∧
        (0.5 : ℝ) < corrcoef (mc nt s l) (mc nt s r)) →
      process_stereo_noise mc nt s l r =
        (List.zipWith (· + ·) (midSig (mc nt s l) (mc nt s r))
          (scale (1 - s * 0.3)
            (List.zipWith (· - ·) (mc nt s l)
              (midSig (mc nt s l) (mc nt s r)))),
         List.zipWith (· + ·) (midSig (mc nt s l) (mc nt s r))
          (scale (1 - s * 0.3)
            (List.zipWith (· - ·) (mc nt s r)
              (midSig (mc nt s l) (mc nt s r)))))) ∧
    (¬(1 < (mc nt s l).length ∧
        (0.5 : ℝ) < corrcoef (mc nt s l) (mc nt s r)) →
      process_stereo_noise mc nt s l r = (mc nt s l, mc nt s r)) := by
  unfold process_stereo_noise enhance_stereo_coherence
  dsimp only
  constructor
  · rintro ⟨hl, hc⟩
    rw [if_pos hl, if_pos hc]
  · intro h
    by_cases hl : 1 < (mc nt s l).length
    · rw [if_pos hl, if_neg (fun hb => h ⟨hl, hb⟩)]
    · rw [if_neg hl, if_neg (by norm_num : ¬((0.5 : ℝ) < 0))]

/-- Witness for the amended C8: a perfectly correlated concrete input takes
the shrink branch, and a one-sample input takes the unchanged branch. -/
theorem coherence_scaled_strength_witness :
    process_stereo_noise (fun _ _ x => x) "auto" 2 [(0 : ℝ), 2] [(0 : ℝ), 2] =
      (List.zipWith (· + ·) (midSig [(0 : ℝ), 2] [(0 : ℝ), 2])
        (scale (1 - 2 * 0.3)
          (List.zipWith (· - ·) [(0 : ℝ), 2]
            (midSig [(0 : ℝ), 2] [(0 : ℝ), 2]))),
       List.zipWith (· + ·) (midSig [(0 : ℝ), 2] [(0 : ℝ), 2])
        (scale (1 - 2 * 0.3)
          (List.zipWith (· - ·) [(0 : ℝ), 2]
            (midSig [(0 : ℝ), 2] [(0 : ℝ), 2])))) ∧
    process_stereo_noise (fun _ _ x => x) "auto" 2 [(5 : ℝ)] [(7 : ℝ)] =
      ([(5 : ℝ)], [(7 : ℝ)]) := by
  have hc : corrcoef [(0 : ℝ), 2] [(0 : ℝ), 2] = 1 :=
    corrcoef_self_pos _ (by norm_num [npDot, devs, npMean])
  have hgt : (0.5 : ℝ) < corrcoef [(0 : ℝ), 2] [(0 : ℝ), 2] := by
    rw [hc]; norm_num
  have hlen2 : 1 < ([(0 : ℝ), 2]).length := by norm_num
  constructor
  · exact (coherence_scaled_strength (fun _ _ x => x) "auto" 2
      [(0 : ℝ), 2] [(0 : ℝ), 2]).1 ⟨hlen2, hgt⟩
  · exact (coherence_scaled_strength (fun _ _ x => x) "auto" 2
      [(5 : ℝ)] [(7 : ℝ)]).2
      (by rintro ⟨hlen, _⟩; norm_num at hlen)

end MusicModifier
